import Mathlib

/-!
# Verification of the ttx-wasm font transcoder core

A shallow embedding of `src/wasm/ttx_wasm.cpp` / `ttx_wasm.h` (namespace
`ttx_wasm`).  Byte buffers (`std::vector<uint8_t>`) are modelled as
`List Nat` with each element a byte value; all multi-byte reads are
big-endian exactly as in the C++ helpers `readUint16BE`/`readUint32BE`.
Machine-integer overflow is made explicit with `% 2 ^ 32` / `% 2 ^ 64`
where the C++ performs fixed-width unsigned arithmetic.
-/

namespace TtxWasm

/-- A byte buffer (`ByteArray` = `std::vector<uint8_t>` in the source). -/
abbrev Bytes := List Nat

/-- Byte access `data[i]`.  The C++ reads through a raw pointer that is
in bounds at every call site except the wrapped-bounds-check path noted
at `parseEntries`; out-of-range indices default to 0 here. -/
def byteAt (data : Bytes) (i : Nat) : Nat :=
  data.getD i 0

/-- `readUint16BE`: `(data[0] << 8) | data[1]`. -/
def readU16 (data : Bytes) (i : Nat) : Nat :=
  (byteAt data i) <<< 8 ||| byteAt data (i + 1)

/-- `readUint32BE`: `(data[0] << 24) | (data[1] << 16) | (data[2] << 8) | data[3]`. -/
def readU32 (data : Bytes) (i : Nat) : Nat :=
  (byteAt data i) <<< 24 ||| (byteAt data (i + 1)) <<< 16 |||
    (byteAt data (i + 2)) <<< 8 ||| byteAt data (i + 3)

/-- `enum class FontFormat` from `ttx_wasm.h`. -/
inductive FontFormat
  | UNKNOWN
  | TTF
  | OTF
  | WOFF
  | WOFF2
  | TTC
  | TTX
deriving DecidableEq, Repr

/-- `FontReader::detectFormat`.  Note the C++ condition
`signature == 0x00010000 || signature == 0x10000`: both literals denote
the same number 65536, so the second disjunct is dead code; it is kept
verbatim here. -/
def detectFormat (data : Bytes) : FontFormat :=
  if data.length < 4 then FontFormat.UNKNOWN
  else
    let signature := readU32 data 0
    if signature = 0x00010000 ∨ signature = 0x10000 then FontFormat.TTF
    else if signature = 0x4F54544F then FontFormat.OTF
    else if signature = 0x74746366 then FontFormat.TTC
    else if signature = 0x774F4646 then FontFormat.WOFF
    else if signature = 0x774F4632 then FontFormat.WOFF2
    else FontFormat.UNKNOWN

/-- The decoded fields of the `head` table (`HeadTable` data members).
`version` … `magicNumber` are `uint32_t`, `flags`/`unitsPerEm`/`macStyle`/
`lowestRecPPEM` are `uint16_t`, `created`/`modified` are `uint64_t`, and
the remaining fields are `int16_t` (modelled as `Int`). -/
structure HeadFields where
  version : Nat
  fontRevision : Nat
  checkSumAdjustment : Nat
  magicNumber : Nat
  flags : Nat
  unitsPerEm : Nat
  created : Nat
  modified : Nat
  xMin : Int
  yMin : Int
  xMax : Int
  yMax : Int
  macStyle : Nat
  lowestRecPPEM : Nat
  fontDirectionHint : Int
  indexToLocFormat : Int
  glyphDataFormat : Int
deriving DecidableEq, Repr

/-- `static_cast<int16_t>(readUint16BE(...))`: reinterpret a 16-bit
unsigned value as two's-complement signed. -/
def toInt16 (n : Nat) : Int :=
  if n < 32768 then (n : Int) else (n : Int) - 65536

namespace HeadTable

/-- `HeadTable::parse`: fails when the input is shorter than 54 bytes,
otherwise reads the fields in strict order, all big-endian.  The two
timestamps are `(high32 << 32) | low32`. -/
def parse (data : Bytes) : Option HeadFields :=
  if data.length < 54 then none
  else some {
    version := readU32 data 0
    fontRevision := readU32 data 4
    checkSumAdjustment := readU32 data 8
    magicNumber := readU32 data 12
    flags := readU16 data 16
    unitsPerEm := readU16 data 18
    created := (readU32 data 20) <<< 32 ||| readU32 data 24
    modified := (readU32 data 28) <<< 32 ||| readU32 data 32
    xMin := toInt16 (readU16 data 36)
    yMin := toInt16 (readU16 data 38)
    xMax := toInt16 (readU16 data 40)
    yMax := toInt16 (readU16 data 42)
    macStyle := readU16 data 44
    lowestRecPPEM := readU16 data 46
    fontDirectionHint := toInt16 (readU16 data 48)
    indexToLocFormat := toInt16 (readU16 data 50)
    glyphDataFormat := toInt16 (readU16 data 52) }

/-- `HeadTable::serialize`: allocates `ByteArray data(54)` (zero filled)
and then writes only `version` and `fontRevision` — the source comment
reads "Continue for all other fields... (Implementation shortened for
brevity, but would include all fields)".  Bytes 8‥53 therefore stay 0. -/
def serialize (f : HeadFields) : Bytes :=
  [f.version >>> 24 &&& 0xFF, f.version >>> 16 &&& 0xFF,
   f.version >>> 8 &&& 0xFF, f.version &&& 0xFF,
   f.fontRevision >>> 24 &&& 0xFF, f.fontRevision >>> 16 &&& 0xFF,
   f.fontRevision >>> 8 &&& 0xFF, f.fontRevision &&& 0xFF] ++
  List.replicate 46 0

end HeadTable

/-- Left-pad a string with '0' to width `w` (`std::setw(w)` with
`std::setfill('0')`). -/
def padZeros (w : Nat) (s : String) : String :=
  String.mk (List.replicate (w - s.length) '0') ++ s

/-- Lowercase hexadecimal rendering of `n` (`std::hex` on an `ostream`;
prints `0` as "0", no leading zeros). -/
def hexString (n : Nat) : String :=
  String.mk (Nat.toDigits 16 n)

/-- Rendering of `v / 65536.0` under `std::fixed` with
`std::setprecision prec`.  Since `v < 2^32`, the double `v / 65536.0` is
exact, and the printed result is that rational correctly rounded to
`prec` decimal places with ties to even. -/
def fmtFixed (v : Nat) (prec : Nat) : String :=
  let scaled := v * 10 ^ prec
  let q := scaled / 65536
  let r := scaled % 65536
  let rounded := if 32768 < r ∨ (r = 32768 ∧ q % 2 = 1) then q + 1 else q
  toString (rounded / 10 ^ prec) ++ "." ++ padZeros prec (toString (rounded % 10 ^ prec))

namespace HeadTable

/-- The lines of `HeadTable::toXML`, in emission order.  `std::hex` set
before `checkSumAdjustment` stays in effect for `magicNumber`; `std::dec`
before `flags` restores decimal for everything after.  The timestamp
lines print `created - 2082844800ULL` / `modified - 2082844800ULL`,
i.e. 64-bit wraparound subtraction. -/
def toXMLLines (f : HeadFields) : List String :=
  ["  <head>\n",
   "    <!-- Most of this table will be recalculated by the compiler -->\n",
   "    <tableVersion value=\"" ++ fmtFixed f.version 1 ++ "\"/>\n",
   "    <fontRevision value=\"" ++ fmtFixed f.fontRevision 3 ++ "\"/>\n",
   "    <checkSumAdjustment value=\"0x" ++ padZeros 8 (hexString f.checkSumAdjustment) ++ "\"/>\n",
   "    <magicNumber value=\"0x" ++ hexString f.magicNumber ++ "\"/>\n",
   "    <flags value=\"" ++ toString f.flags ++ "\"/>\n",
   "    <unitsPerEm value=\"" ++ toString f.unitsPerEm ++ "\"/>\n",
   "    <created value=\"" ++ toString ((f.created + (2 ^ 64 - 2082844800)) % 2 ^ 64) ++ "\"/>\n",
   "    <modified value=\"" ++ toString ((f.modified + (2 ^ 64 - 2082844800)) % 2 ^ 64) ++ "\"/>\n",
   "    <xMin value=\"" ++ toString f.xMin ++ "\"/>\n",
   "    <yMin value=\"" ++ toString f.yMin ++ "\"/>\n",
   "    <xMax value=\"" ++ toString f.xMax ++ "\"/>\n",
   "    <yMax value=\"" ++ toString f.yMax ++ "\"/>\n",
   "    <macStyle value=\"" ++ toString f.macStyle ++ "\"/>\n",
   "    <lowestRecPPEM value=\"" ++ toString f.lowestRecPPEM ++ "\"/>\n",
   "    <fontDirectionHint value=\"" ++ toString f.fontDirectionHint ++ "\"/>\n",
   "    <indexToLocFormat value=\"" ++ toString f.indexToLocFormat ++ "\"/>\n",
   "    <glyphDataFormat value=\"" ++ toString f.glyphDataFormat ++ "\"/>\n",
   "  </head>\n"]

/-- `HeadTable::toXML`: the concatenation of `toXMLLines`. -/
def toXML (f : HeadFields) : String :=
  String.join (toXMLLines f)

end HeadTable

/-- `struct NameRecord` (from the name table): the string payload is
copied verbatim from the buffer (no platform/encoding decoding). -/
structure NameRecord where
  platformID : Nat
  encodingID : Nat
  languageID : Nat
  nameID : Nat
  string : String
deriving DecidableEq, Repr

namespace NameTable

/-- The record-reading loop of `NameTable::parse`: `count` 12-byte
records starting at byte 6; fails (whole-table) if a record runs past
the buffer; a record whose string range is out of bounds keeps its
default empty string. -/
def parseRecords (data : Bytes) (stringOffset : Nat) :
    Nat → Nat → List NameRecord → Option (List NameRecord)
  | 0, _, acc => some acc.reverse
  | n + 1, offset, acc =>
    if offset + 12 > data.length then none
    else
      let len := readU16 data (offset + 8)
      let strOffset := readU16 data (offset + 10)
      let actualOffset := stringOffset + strOffset
      let s := if actualOffset + len ≤ data.length then
          String.mk (((data.drop actualOffset).take len).map Char.ofNat)
        else ""
      parseRecords data stringOffset n (offset + 12)
        ({ platformID := readU16 data offset
           encodingID := readU16 data (offset + 2)
           languageID := readU16 data (offset + 4)
           nameID := readU16 data (offset + 6)
           string := s } :: acc)

/-- `NameTable::parse`: requires at least 6 bytes for
format/count/stringOffset (format is read but unused), then the record
loop. -/
def parse (data : Bytes) : Option (List NameRecord) :=
  if data.length < 6 then none
  else parseRecords data (readU16 data 4) (readU16 data 2) 6 []

end NameTable

/-- Position of the first occurrence of `c` in a character list
(`std::string::find` searching from index 0). -/
def findIn (c : Char) : List Char → Option Nat
  | [] => none
  | a :: t => if a = c then some 0 else (findIn c t).map (· + 1)

/-- `std::string::find(c, pos)`: first occurrence at index ≥ `pos`
(`none` = `npos`, in particular whenever `pos` exceeds the length). -/
def findFrom (c : Char) (s : List Char) (pos : Nat) : Option Nat :=
  (findIn c (s.drop pos)).map (· + pos)

/-- `std::string::npos` (`size_t(-1)` on wasm32). -/
def NPOS : Nat := 2 ^ 32 - 1

/-- The replace loop of `NameTable::toXML`:
`while ((pos = s.find(c, pos)) != npos) { s.replace(pos, 1, rep); pos += rep.length; }`.
Each found position `p` satisfies `pos ≤ p < s.length` and the next
search starts past the inserted replacement, so the measure
`s.length - pos` strictly decreases; a fuel of `s.length + 1` therefore
always suffices and the fuel-exhausted branch is never taken at the
call sites below. -/
def escLoop (c : Char) (rep : List Char) : Nat → List Char → Nat → List Char
  | 0, s, _ => s
  | fuel + 1, s, pos =>
    match findFrom c s pos with
    | none => s
    | some p => escLoop c rep fuel (s.take p ++ rep ++ s.drop (p + 1)) (p + rep.length)

/-- The escaping block of `NameTable::toXML`.  The first loop replaces
every `'&'` with `"&amp;"` starting from position 0.  The second loop
reuses `pos` without resetting it: after the first loop `pos` holds
`npos`, and `find('<', npos)` always fails, so the `'<'` loop body never
runs. -/
def escapeRecordString (s : List Char) : List Char :=
  let s1 := escLoop '&' ("&amp;".data) (s.length + 1) s 0
  escLoop '<' ("&lt;".data) (s1.length + 1) s1 NPOS

namespace NameTable

/-- One `<namerecord>` element of `NameTable::toXML` (langID is printed
in lowercase hex after "0x"). -/
def recordXML (r : NameRecord) : String :=
  "    <namerecord nameID=\"" ++ toString r.nameID ++
    "\" platformID=\"" ++ toString r.platformID ++
    "\" platEncID=\"" ++ toString r.encodingID ++
    "\" langID=\"0x" ++ hexString r.languageID ++ "\">\n" ++
    "      " ++ String.mk (escapeRecordString r.string.data) ++ "\n" ++
    "    </namerecord>\n"

/-- `NameTable::toXML`: one element per record in original order. -/
def toXML (records : List NameRecord) : String :=
  "  <name>\n" ++ String.join (records.map recordXML) ++ "  </name>\n"

end NameTable

/-- `struct EncodingRecord` of the cmap table. -/
structure EncodingRecord where
  platformID : Nat
  encodingID : Nat
  offset : Nat
deriving DecidableEq, Repr

/-- `std::map<uint32_t, uint16_t> glyphMapping`, modelled as an
association list sorted by key (the map's iteration order). -/
abbrev GlyphMap := List (Nat × Nat)

/-- Ordered insert-or-assign for `GlyphMap` (`glyphMapping[k] = v`). -/
def natMapInsert (k v : Nat) : GlyphMap → GlyphMap
  | [] => [(k, v)]
  | (k', v') :: t =>
    if k < k' then (k, v) :: (k', v') :: t
    else if k' < k then (k', v') :: natMapInsert k v t
    else (k, v) :: t

/-- Key lookup in a `GlyphMap` (`std::map::find`). -/
def natLookup : GlyphMap → Nat → Option Nat
  | [], _ => none
  | (k', v) :: t, k => if k = k' then some v else natLookup t k

namespace CmapTable

/-- `CmapTable::parseSubtable`.  For format 4 the subtable's
length/language/segCountX2 header fields are read, but — per the source
comment "Simplified parsing - just create some basic mappings.  In a
real implementation, this would parse the full segment arrays" — the
segment arrays are never read: a fixed mapping `i ↦ i % 256` for
`i = 0..255` is installed regardless of the arrays' content.  Format 12
likewise installs `i ↦ i` for `i < 256`.  Any other format succeeds
with the mapping untouched. -/
def parseSubtable (data : Bytes) (offset : Nat) (m : GlyphMap) : Bool × GlyphMap :=
  if offset + 6 > data.length then (false, m)
  else
    let format := readU16 data offset
    if format = 4 then
      if offset + 14 > data.length then (false, m)
      else
        (true, (List.range 256).foldl (fun acc i => natMapInsert i (i % 256) acc) m)
    else if format = 12 then
      (true, (List.range 65536).foldl
        (fun acc i => if i < 256 then natMapInsert i i acc else acc) m)
    else (true, m)

/-- The decoded fields of the cmap table. -/
structure Fields where
  version : Nat
  encodingRecords : List EncodingRecord
  glyphMapping : GlyphMap
deriving DecidableEq, Repr

/-- The encoding-record loop of `CmapTable::parse`: `numTables` 8-byte
records from byte 4; fails if a record runs past the buffer. -/
def parseEncRecords (data : Bytes) :
    Nat → Nat → List EncodingRecord → Option (List EncodingRecord)
  | 0, _, acc => some acc.reverse
  | n + 1, offset, acc =>
    if offset + 8 > data.length then none
    else parseEncRecords data n (offset + 8)
      ({ platformID := readU16 data offset
         encodingID := readU16 data (offset + 2)
         offset := readU32 data (offset + 4) } :: acc)

/-- `CmapTable::parse`: version and numTables, the record loop, then
only the first encoding record's subtable is decoded ("For simplicity,
we'll just parse the first subtable"); `parseSubtable`'s boolean result
is ignored. -/
def parse (data : Bytes) : Option Fields :=
  if data.length < 4 then none
  else
    match parseEncRecords data (readU16 data 2) 4 [] with
    | none => none
    | some recs =>
      let m := match recs with
        | [] => ([] : GlyphMap)
        | r :: _ => (parseSubtable data r.offset []).2
      some { version := readU16 data 0, encodingRecords := recs, glyphMapping := m }

end CmapTable

/-- Lexicographic byte-wise comparison of character lists:
`std::char_traits<char>::compare` semantics (bytes compared as unsigned
char).  Table tags hold byte values < 256, for which `Char.toNat` is
exactly the byte. -/
def charListLtb : List Char → List Char → Bool
  | [], [] => false
  | [], _ :: _ => true
  | _ :: _, [] => false
  | a :: s, b :: t => if a.toNat = b.toNat then charListLtb s t else decide (a.toNat < b.toNat)

/-- `operator<` on `std::string` (the `std::less<std::string>` comparator
of the table map). -/
def strLtb (a b : String) : Bool :=
  charListLtb a.data b.data

/-- The polymorphic `FontTable` hierarchy as a sum over its four
variants (`GenericTable`, `HeadTable`, `NameTable`, `CmapTable`).
`GenericTable::parse` stores the raw bytes verbatim. -/
inductive FontTable
  | generic (tag : String) (rawData : Bytes)
  | head (fields : HeadFields)
  | name (records : List NameRecord)
  | cmap (fields : CmapTable.Fields)
deriving DecidableEq, Repr

/-- `TableMap` = `std::map<std::string, std::shared_ptr<FontTable>>`,
modelled as an association list sorted ascending by `strLtb` (the map's
iteration order).  The value is an `Option` because
`FontReader::parseTableDirectory` stores the result of `createTable`
unchecked, which is `nullptr` (`none`) when the codec's parse failed. -/
abbrev TableMap := List (String × Option FontTable)

/-- Ordered insert-or-assign (`tables_[tag] = v`). -/
def mapInsert (k : String) (v : Option FontTable) : TableMap → TableMap
  | [] => [(k, v)]
  | (k', v') :: t =>
    if strLtb k k' then (k, v) :: (k', v') :: t
    else if strLtb k' k then (k', v') :: mapInsert k v t
    else (k, v) :: t

/-- `tables_.find(tag)`: `none` when the key is absent, `some v` when
present (where `v` itself may be the stored null pointer). -/
def mapFind : TableMap → String → Option (Option FontTable)
  | [], _ => none
  | (k', v) :: t, k => if k = k' then some v else mapFind t k

/-- `FontReader::createTable`: tag-dispatch to a typed codec ("head",
"name", "cmap"), generic fallback otherwise; returns `none`
(C++ `nullptr`) when the chosen codec's `parse` fails.
`GenericTable::parse` always succeeds. -/
def createTable (tag : String) (data : Bytes) : Option FontTable :=
  if tag = "head" then (HeadTable.parse data).map FontTable.head
  else if tag = "name" then (NameTable.parse data).map FontTable.name
  else if tag = "cmap" then (CmapTable.parse data).map FontTable.cmap
  else some (FontTable.generic tag data)

/-- The 4-byte table tag at `i`:
`std::string(reinterpret_cast<const char*>(data.data() + i), 4)`. -/
def tagAt (data : Bytes) (i : Nat) : String :=
  String.mk [Char.ofNat (byteAt data i), Char.ofNat (byteAt data (i + 1)),
             Char.ofNat (byteAt data (i + 2)), Char.ofNat (byteAt data (i + 3))]

/-- The entry loop of `FontReader::parseTableDirectory`: 16-byte entries
(tag, checksum — read but unused —, offset, length).  An entry record
extending past the buffer fails the whole walk.  The bounds check is
`tableOffset + length > data.size()` computed in `uint32_t`, hence the
explicit `% 2 ^ 32`: when the 32-bit sum wraps, the check passes even
though the true range is out of bounds, and the C++ then builds the
table bytes from out-of-range iterators (undefined behavior); the
extraction is modelled totally as drop/take. -/
def parseEntries (data : Bytes) : Nat → Nat → TableMap → Bool × TableMap
  | _, 0, ts => (true, ts)
  | entryOffset, n + 1, ts =>
    if entryOffset + 16 > data.length then (false, ts)
    else if (readU32 data (entryOffset + 8) + readU32 data (entryOffset + 12)) % 2 ^ 32 >
        data.length then
      parseEntries data (entryOffset + 16) n ts
    else
      parseEntries data (entryOffset + 16) n
        (mapInsert (tagAt data entryOffset)
          (createTable (tagAt data entryOffset)
            ((data.drop (readU32 data (entryOffset + 8))).take
              (readU32 data (entryOffset + 12)))) ts)

/-- `FontReader::parseTableDirectory(data, offset)`: rejects
`offset < 12`, re-reads the table count at byte 4, then the entry
loop.  Accumulates into the existing `tables_` (which is never
cleared). -/
def parseTableDirectory (data : Bytes) (offset : Nat) (ts : TableMap) : Bool × TableMap :=
  if offset < 12 then (false, ts)
  else parseEntries data offset (readU16 data 4) ts

/-- The mutable state of a `FontReader` (`format_` and `tables_`;
`metadata_` and `fontCount_` are never written). -/
structure ReaderState where
  format : FontFormat
  tables : TableMap
deriving DecidableEq, Repr

/-- A freshly constructed `FontReader`. -/
def emptyReader : ReaderState :=
  { format := FontFormat.UNKNOWN, tables := [] }

/-- `FontReader::parseTTF`: requires ≥ 12 bytes; reads numTables at
byte 4 into a local that is not used further; entries start at 12. -/
def parseTTF (data : Bytes) (st : ReaderState) : Bool × ReaderState :=
  if data.length < 12 then (false, st)
  else
    ((parseTableDirectory data 12 st.tables).1,
     { st with tables := (parseTableDirectory data 12 st.tables).2 })

/-- `FontReader::loadFont`: empty-buffer check, then `format_ =
detectFormat(data)` and a switch.  TTF and OTF go through `parseTTF`;
WOFF/WOFF2/TTC stubs return false; default returns false.  Note that
`tables_` from any earlier call survives into this one. -/
def loadFont (data : Bytes) (st : ReaderState) : Bool × ReaderState :=
  if data = [] then (false, st)
  else
    match detectFormat data with
    | FontFormat.TTF => parseTTF data { st with format := FontFormat.TTF }
    | FontFormat.OTF => parseTTF data { st with format := FontFormat.OTF }
    | FontFormat.WOFF => (false, { st with format := FontFormat.WOFF })
    | FontFormat.WOFF2 => (false, { st with format := FontFormat.WOFF2 })
    | FontFormat.TTC => (false, { st with format := FontFormat.TTC })
    | fmt => (false, { st with format := fmt })

/-- `FontReader::getTableList`: the keys of `tables_` in map iteration
order (keys with a stored null table included). -/
def getTableList (st : ReaderState) : List String :=
  st.tables.map Prod.fst

/-- `FontReader::getTable`: `nullptr` both when the tag is absent and
when the stored pointer is null. -/
def getTable (st : ReaderState) (tag : String) : Option FontTable :=
  (mapFind st.tables tag).join

/-- `struct FontMetadata`. -/
structure FontMetadata where
  family : String
  style : String
  version : String
  unitsPerEm : Nat
  created : Nat
  modified : Nat
deriving DecidableEq, Repr

/-- Default-constructed `FontMetadata`. -/
def emptyMetadata : FontMetadata :=
  { family := "", style := "", version := "", unitsPerEm := 0, created := 0, modified := 0 }

/-- `struct FontInfo`. -/
structure FontInfo where
  format : FontFormat
  tables : List String
  metadata : FontMetadata
  fontCount : Nat
deriving DecidableEq, Repr

/-- Default-constructed `FontInfo` (returned by
`TTXProcessor::getFontInfo` when the load fails). -/
def emptyFontInfo : FontInfo :=
  { format := FontFormat.UNKNOWN, tables := [], metadata := emptyMetadata, fontCount := 1 }

/-- The name-record scan of `FontReader::getFontInfo`: English
(langID 0x0409) or language-0 records fill family (nameID 1), style
(nameID 2) and version (nameID 5), first occurrence wins. -/
def metadataFromName (recs : List NameRecord) (md : FontMetadata) : FontMetadata :=
  recs.foldl
    (fun md r =>
      if r.languageID = 0x0409 ∨ r.languageID = 0 then
        match r.nameID with
        | 1 => if md.family = "" then { md with family := r.string } else md
        | 2 => if md.style = "" then { md with style := r.string } else md
        | 5 => if md.version = "" then { md with version := r.string } else md
        | _ => md
      else md)
    md

/-- `FontReader::getFontInfo`: metadata from the head table (if the
stored table is a `HeadTable`) and the name table, plus the table-tag
list built from `tables_` (again including keys stored as null). -/
def getFontInfo (st : ReaderState) : FontInfo :=
  let md1 := match getTable st "head" with
    | some (FontTable.head f) =>
      { emptyMetadata with unitsPerEm := f.unitsPerEm, created := f.created, modified := f.modified }
    | _ => emptyMetadata
  let md2 := match getTable st "name" with
    | some (FontTable.name recs) => metadataFromName recs md1
    | _ => md1
  { format := st.format, tables := st.tables.map Prod.fst, metadata := md2, fontCount := 1 }

/-- `struct TTXOptions`. -/
structure TTXOptions where
  onlyTables : List String
  skipTables : List String
  splitTables : Bool
  splitGlyphs : Bool
  disassembleInstructions : Bool
  fontNumber : Int
  ignoreDecompileErrors : Bool
  recalcBBoxes : Bool
  flavor : String
deriving DecidableEq, Repr

/-- Default-constructed `TTXOptions`. -/
def defaultOptions : TTXOptions :=
  { onlyTables := [], skipTables := [], splitTables := false, splitGlyphs := false,
    disassembleInstructions := true, fontNumber := -1, ignoreDecompileErrors := true,
    recalcBBoxes := true, flavor := "" }

/-- `TTXWriter::shouldIncludeTable`: the skip list is checked first
(the `!skipTables.empty()` guard is equivalent to the membership test),
then a non-empty only list is decisive, else include. -/
def shouldIncludeTable (tag : String) (opts : TTXOptions) : Bool :=
  if opts.skipTables.contains tag then false
  else if opts.onlyTables.isEmpty then true
  else opts.onlyTables.contains tag

/-- The sequence of table tags whose elements
`TTXWriter::convertToXML` emits, in emission order: the loop walks
`getTableList()` and emits a table's XML when `shouldIncludeTable`
passes and `getTable` is non-null. -/
def convertToXMLTags (st : ReaderState) (opts : TTXOptions) : List String :=
  (getTableList st).filter (fun tag => shouldIncludeTable tag opts && (getTable st tag).isSome)

/-- `struct TTXResult`. -/
structure TTXResult where
  data : Bytes
  format : String
  warnings : List String
  success : Bool
deriving DecidableEq, Repr

namespace TTXParser

/-- `TTXParser::parseXML`: "This is a simplified implementation" — it
clears `tables_` and returns true, for every input. -/
def parseXML (_xml : String) (_ts : TableMap) : Bool × TableMap :=
  (true, [])

/-- `TTXParser::generateFont`: a 12-byte buffer, zero-filled by
`resize(12)`, with the TTF sfnt version written at bytes 0‥3 and the
16-bit table count at bytes 4‥5; bytes 6‥11 stay 0. -/
def generateFont (_opts : TTXOptions) (ts : TableMap) : Bytes :=
  let sfntVersion := 0x00010000
  let numTables := ts.length % 2 ^ 16
  [sfntVersion >>> 24 &&& 0xFF, sfntVersion >>> 16 &&& 0xFF,
   sfntVersion >>> 8 &&& 0xFF, sfntVersion &&& 0xFF,
   numTables >>> 8 &&& 0xFF, numTables &&& 0xFF, 0, 0, 0, 0, 0, 0]

end TTXParser

/-- The mutable members of the (process-wide, `static`) `TTXProcessor`:
`mutable FontReader reader_` and `mutable TTXParser parser_` (the
writer holds no state). -/
structure ProcessorState where
  reader : ReaderState
  parserTables : TableMap
deriving DecidableEq, Repr

/-- A freshly constructed `TTXProcessor`. -/
def emptyProcessor : ProcessorState :=
  { reader := emptyReader, parserTables := [] }

namespace TTXProcessor

/-- `TTXProcessor::listTables`: loads into the shared `reader_`
(whose previous tables survive) and returns its table list, or an
empty list when the load fails.  Either way `reader_`'s mutated state
persists for the next call. -/
def listTables (data : Bytes) (ps : ProcessorState) : List String × ProcessorState :=
  let r := loadFont data ps.reader
  ((if r.1 then getTableList r.2 else []), { ps with reader := r.2 })

/-- `TTXProcessor::getFontInfo`: empty info on load failure, otherwise
the reader's info; same persistent-state caveat as `listTables`. -/
def processorFontInfo (data : Bytes) (ps : ProcessorState) : FontInfo × ProcessorState :=
  let r := loadFont data ps.reader
  ((if r.1 then getFontInfo r.2 else emptyFontInfo), { ps with reader := r.2 })

/-- `TTXProcessor::compileFromTTX`: parse (which always succeeds and
clears the parser tables), then generate the fixed 12-byte font; the
format string is the flavor option or "TTF". -/
def compileFromTTX (ttxData : String) (opts : TTXOptions) (ps : ProcessorState) :
    TTXResult × ProcessorState :=
  let r := TTXParser.parseXML ttxData ps.parserTables
  if r.1 = false then
    ({ data := [], format := "", warnings := ["Failed to parse TTX XML"], success := false },
     { ps with parserTables := r.2 })
  else
    ({ data := TTXParser.generateFont opts r.2,
       format := if opts.flavor = "" then "TTF" else opts.flavor,
       warnings := [], success := true },
     { ps with parserTables := r.2 })

end TTXProcessor

/-- Reference order for C4, following the spec's words ("one element
per table tag in directory order"): the walk below mirrors
`parseEntries`' bounds checks but collects the stored entries' tags in
the order their entries appear in the directory, instead of map key
order. -/
def specDirectoryTagsAux (data : Bytes) : Nat → Nat → List String
  | _, 0 => []
  | entryOffset, n + 1 =>
    if entryOffset + 16 > data.length then []
    else
      let tableOffset := readU32 data (entryOffset + 8)
      let len := readU32 data (entryOffset + 12)
      if (tableOffset + len) % 2 ^ 32 > data.length then
        specDirectoryTagsAux data (entryOffset + 16) n
      else
        tagAt data entryOffset :: specDirectoryTagsAux data (entryOffset + 16) n

/-- Reference definition for C4 (spec side): the stored table tags in
directory order. -/
def specDirectoryTags (data : Bytes) : List String :=
  if data.length < 12 then []
  else specDirectoryTagsAux data 12 (readU16 data 4)

/-- Reference semantics for C7, following the spec's description of a
format-4 subtable ("segment mapping — four parallel arrays of
end-codes, start-codes, id-deltas, and id-range-offsets, segment count
= segCountX2/2"): find the first segment whose end code is ≥ the code
point, require the start code ≤ it; a zero id-range-offset maps through
the 16-bit delta, a non-zero one indexes the glyph-id array (relative
to the id-range-offset slot), with glyph 0 meaning unmapped. -/
def specFormat4Lookup (data : Bytes) (offset : Nat) (c : Nat) : Option Nat :=
  let segCount := readU16 data (offset + 6) / 2
  let endBase := offset + 14
  let startBase := endBase + 2 * segCount + 2
  let deltaBase := startBase + 2 * segCount
  let rangeBase := deltaBase + 2 * segCount
  match (List.range segCount).find? (fun i => decide (c ≤ readU16 data (endBase + 2 * i))) with
  | none => none
  | some i =>
    let startCode := readU16 data (startBase + 2 * i)
    if c < startCode then none
    else
      let idDelta := readU16 data (deltaBase + 2 * i)
      let idRangeOffset := readU16 data (rangeBase + 2 * i)
      if idRangeOffset = 0 then some ((c + idDelta) % 65536)
      else
        let g := readU16 data (rangeBase + 2 * i + idRangeOffset + 2 * (c - startCode))
        if g = 0 then none else some ((g + idDelta) % 65536)

/-! ## Helper lemmas about the table-map key order -/

/-- Strict key order on table-map entries. -/
def tableKeyLt (a b : String × Option FontTable) : Prop :=
  strLtb a.1 b.1 = true

/-- `charListLtb` is connected: two lists in neither order are equal. -/
theorem charListLtb_eq_of_not_lt :
    ∀ {a b : List Char}, charListLtb a b = false → charListLtb b a = false → a = b := by
  intro a
  induction a with
  | nil =>
    intro b h1 h2
    cases b with
    | nil => rfl
    | cons y t => simp [charListLtb] at h1
  | cons x s ih =>
    intro b h1 h2
    cases b with
    | nil => simp [charListLtb] at h2
    | cons y t =>
      simp only [charListLtb] at h1 h2
      by_cases hxy : x.toNat = y.toNat
      · rw [if_pos hxy] at h1
        rw [if_pos hxy.symm] at h2
        have hx : x = y := by
          have hc := congrArg Char.ofNat hxy
          rwa [Char.ofNat_toNat, Char.ofNat_toNat] at hc
        rw [hx, ih h1 h2]
      · rw [if_neg hxy] at h1
        rw [if_neg (fun h => hxy h.symm)] at h2
        simp only [decide_eq_false_iff_not, not_lt] at h1 h2
        omega

/-- `strLtb` is connected on strings. -/
theorem strLtb_eq_of_not_lt {a b : String} (h1 : strLtb a b = false)
    (h2 : strLtb b a = false) : a = b := by
  have hd : a.data = b.data := charListLtb_eq_of_not_lt h1 h2
  exact congrArg String.mk hd

/-- The head of `mapInsert k v t` carries either the inserted key or
the original head key. -/
theorem mapInsert_head_key (k : String) (v : Option FontTable) (t : TableMap)
    (p : String × Option FontTable) (hp : p ∈ (mapInsert k v t).head?) :
    p.1 = k ∨ ∃ q ∈ t.head?, p.1 = q.1 := by
  cases t with
  | nil =>
    simp only [mapInsert, List.head?_cons, Option.mem_def, Option.some.injEq] at hp
    left
    rw [← hp]
  | cons q t' =>
    obtain ⟨k', v'⟩ := q
    simp only [mapInsert] at hp
    by_cases h1 : strLtb k k' = true
    · rw [if_pos h1] at hp
      simp only [List.head?_cons, Option.mem_def, Option.some.injEq] at hp
      left
      rw [← hp]
    · rw [if_neg h1] at hp
      by_cases h2 : strLtb k' k = true
      · rw [if_pos h2] at hp
        simp only [List.head?_cons, Option.mem_def, Option.some.injEq] at hp
        right
        exact ⟨(k', v'), by simp, by rw [← hp]⟩
      · rw [if_neg h2] at hp
        simp only [List.head?_cons, Option.mem_def, Option.some.injEq] at hp
        left
        rw [← hp]

/-- Insert-or-assign preserves strict ascending key order. -/
theorem mapInsert_chain (k : String) (v : Option FontTable) :
    ∀ (t : TableMap), List.Chain' tableKeyLt t →
      List.Chain' tableKeyLt (mapInsert k v t) := by
  intro t
  induction t with
  | nil =>
    intro _
    simp [mapInsert]
  | cons q t' ih =>
    obtain ⟨k', v'⟩ := q
    intro h
    rw [List.chain'_cons'] at h
    obtain ⟨h1, h2⟩ := h
    simp only [mapInsert]
    by_cases hlt : strLtb k k' = true
    · rw [if_pos hlt, List.chain'_cons']
      constructor
      · intro p hp
        simp only [List.head?_cons, Option.mem_def, Option.some.injEq] at hp
        rw [← hp]
        exact hlt
      · rw [List.chain'_cons']
        exact ⟨h1, h2⟩
    · rw [if_neg hlt]
      by_cases hgt : strLtb k' k = true
      · rw [if_pos hgt, List.chain'_cons']
        refine ⟨?_, ih h2⟩
        intro p hp
        rcases mapInsert_head_key k v t' p hp with hk | ⟨q, hq, hpq⟩
        · show strLtb k' p.1 = true
          rw [hk]
          exact hgt
        · show strLtb k' p.1 = true
          rw [hpq]
          exact h1 q hq
      · rw [if_neg hgt, List.chain'_cons']
        have hk : k = k' :=
          strLtb_eq_of_not_lt (Bool.eq_false_iff.mpr hlt) (Bool.eq_false_iff.mpr hgt)
        refine ⟨?_, h2⟩
        intro p hp
        show strLtb k p.1 = true
        rw [hk]
        exact h1 p hp

/-- The directory walk preserves strict ascending key order. -/
theorem parseEntries_chain (data : Bytes) :
    ∀ (n entryOffset : Nat) (ts : TableMap), List.Chain' tableKeyLt ts →
      List.Chain' tableKeyLt (parseEntries data entryOffset n ts).2 := by
  intro n
  induction n with
  | zero =>
    intro eo ts h
    exact h
  | succ n ih =>
    intro eo ts h
    simp only [parseEntries]
    split
    · exact h
    · split
      · exact ih _ _ h
      · exact ih _ _ (mapInsert_chain _ _ _ h)

/-- `loadFont` preserves strict ascending key order of the table map. -/
theorem loadFont_chain (data : Bytes) (st : ReaderState)
    (h : List.Chain' tableKeyLt st.tables) :
    List.Chain' tableKeyLt (loadFont data st).2.tables := by
  unfold loadFont
  split
  · exact h
  · split <;>
      first
        | exact h
        | · unfold parseTTF
            split
            · exact h
            · unfold parseTableDirectory
              split
              · exact h
              · exact parseEntries_chain data _ _ _ h

/-! ## Concrete inputs used by the claim theorems -/

/-- A minimal 28-byte TTF: sfnt version, one directory entry with tag
"AAAA", offset 28, length 0. -/
def c1buf1 : Bytes :=
  [0, 1, 0, 0, 0, 1, 0, 0, 0, 0, 0, 0] ++
  [65, 65, 65, 65, 0, 0, 0, 0, 0, 0, 0, 28, 0, 0, 0, 0]

/-- Like `c1buf1` but with tag "BBBB". -/
def c1buf2 : Bytes :=
  [0, 1, 0, 0, 0, 1, 0, 0, 0, 0, 0, 0] ++
  [66, 66, 66, 66, 0, 0, 0, 0, 0, 0, 0, 28, 0, 0, 0, 0]

/-- A 54-byte head table whose ninth byte (the checksum-adjustment's
most significant byte) is 1 and all others are 0. -/
def c3buf : Bytes :=
  [0, 0, 0, 0, 0, 0, 0, 0, 1] ++ List.replicate 45 0

/-- A 44-byte TTF whose directory lists tag "BBBB" before tag "AAAA"
(both entries point at the empty range [44, 44)). -/
def c4buf : Bytes :=
  [0, 1, 0, 0, 0, 2, 0, 0, 0, 0, 0, 0] ++
  [66, 66, 66, 66, 0, 0, 0, 0, 0, 0, 0, 44, 0, 0, 0, 0] ++
  [65, 65, 65, 65, 0, 0, 0, 0, 0, 0, 0, 44, 0, 0, 0, 0]

/-- The 44-byte directory prefix of the C5 font: two entries, a "head"
table at offset 44 with length 53 (one byte short of the codec's
54-byte precondition) and a generic "AAAA" table at offset 97 with
length 1. -/
def c5pre : Bytes :=
  [0, 1, 0, 0, 0, 2, 0, 0, 0, 0, 0, 0] ++
  [104, 101, 97, 100, 0, 0, 0, 0, 0, 0, 0, 44, 0, 0, 0, 53] ++
  [65, 65, 65, 65, 0, 0, 0, 0, 0, 0, 0, 97, 0, 0, 0, 1]

/-- A 28-byte TTF whose single entry declares offset 0xFFFFFFFF and
length 1: the true range is far out of bounds, but the 32-bit sum
`offset + length` wraps to 0. -/
def c6buf : Bytes :=
  [0, 1, 0, 0, 0, 1, 0, 0, 0, 0, 0, 0] ++
  [65, 65, 65, 65, 0, 0, 0, 0, 255, 255, 255, 255, 0, 0, 0, 1]

/-- A 44-byte cmap table: one encoding record pointing at a format-4
subtable (at offset 12) with two segments whose parallel arrays map
exactly code point 0x5A to glyph 5 (and the 0xFFFF terminator segment
to glyph 0). -/
def c7buf : Bytes :=
  [0, 0, 0, 1, 0, 3, 0, 1, 0, 0, 0, 12] ++
  [0, 4, 0, 32, 0, 0, 0, 4, 0, 4, 0, 1, 0, 0] ++
  [0, 0x5A, 0xFF, 0xFF] ++ [0, 0] ++ [0, 0x5A, 0xFF, 0xFF] ++
  [0xFF, 0xAB, 0, 1] ++ [0, 0, 0, 0]

/-- The name record of C8, with payload "A & B < C". -/
def c8record : NameRecord :=
  { platformID := 3, encodingID := 1, languageID := 0x409, nameID := 1,
    string := "A & B < C" }

/-- A 54-byte head table with unitsPerEm = 2048 (bytes 18‥19) and
created = 3644697600 (bytes 20‥27), all other fields 0. -/
def c9buf : Bytes :=
  List.replicate 18 0 ++ [8, 0] ++ [0, 0, 0, 0, 0xD9, 0x3D, 0xAC, 0x00] ++
  List.replicate 26 0

/-- The decoded fields of `c9buf`. -/
def c9fields : HeadFields :=
  { version := 0, fontRevision := 0, checkSumAdjustment := 0, magicNumber := 0,
    flags := 0, unitsPerEm := 2048, created := 3644697600, modified := 0,
    xMin := 0, yMin := 0, xMax := 0, yMax := 0, macStyle := 0, lowestRecPPEM := 0,
    fontDirectionHint := 0, indexToLocFormat := 0, glyphDataFormat := 0 }

/-- The decoded fields of the all-zero 54-byte head table; in
particular its created timestamp 0 lies below the Mac-to-Unix epoch
offset 2082844800. -/
def headZeroFields : HeadFields :=
  { version := 0, fontRevision := 0, checkSumAdjustment := 0, magicNumber := 0,
    flags := 0, unitsPerEm := 0, created := 0, modified := 0,
    xMin := 0, yMin := 0, xMax := 0, yMax := 0, macStyle := 0, lowestRecPPEM := 0,
    fontDirectionHint := 0, indexToLocFormat := 0, glyphDataFormat := 0 }

/-! ## Claim theorems -/

/-- C1: calls through the same processor are NOT stateless: `tables_`
is never cleared by `loadFont`, so after `listTables` on a font with
table "AAAA", `listTables` on a font with table "BBBB" reports both
tags, while on a fresh processor it reports only "BBBB". -/
theorem c1_state_persists_across_calls :
    (TTXProcessor.listTables c1buf2 emptyProcessor).1 = ["BBBB"] ∧
    (TTXProcessor.listTables c1buf2
        (TTXProcessor.listTables c1buf1 emptyProcessor).2).1 = ["AAAA", "BBBB"] ∧
    (TTXProcessor.listTables c1buf2
        (TTXProcessor.listTables c1buf1 emptyProcessor).2).1 ≠
      (TTXProcessor.listTables c1buf2 emptyProcessor).1 := by
  decide

/-- C2: `detectFormat` maps the four canonical signatures and
`00 01 00 00` correctly and never faults on short input, but the bytes
`00 00 01 00` yield UNKNOWN, not TTF: the C++ second disjunct
`signature == 0x10000` denotes the same number as `0x00010000`, so the
0x00000100 signature is never recognized. -/
theorem c2_second_ttf_signature_unrecognized :
    detectFormat [0x00, 0x00, 0x01, 0x00] = FontFormat.UNKNOWN ∧
    detectFormat [0x00, 0x01, 0x00, 0x00] = FontFormat.TTF ∧
    detectFormat [0x4F, 0x54, 0x54, 0x4F] = FontFormat.OTF ∧
    detectFormat [0x74, 0x74, 0x63, 0x66] = FontFormat.TTC ∧
    detectFormat [0x77, 0x4F, 0x46, 0x46] = FontFormat.WOFF ∧
    detectFormat [0x77, 0x4F, 0x46, 0x32] = FontFormat.WOFF2 ∧
    detectFormat [0x00, 0x01, 0x00] = FontFormat.UNKNOWN := by
  decide

/-- C3: `serialize` is not the inverse of `parse`: on the 54-byte
buffer `c3buf` (accepted by `parse`), re-encoding yields 54 zero bytes
because `serialize` writes only the first two fields, so the original
byte 8 = 1 is lost. -/
theorem c3_serialize_not_inverse_of_parse :
    (HeadTable.parse c3buf).map HeadTable.serialize = some (List.replicate 54 0) ∧
    c3buf.length = 54 ∧
    c3buf ≠ List.replicate 54 0 := by
  decide

/-- C4 counterexample: on a font whose directory lists "BBBB" before
"AAAA", the XML writer emits the tags in map order ["AAAA", "BBBB"],
not in the directory order ["BBBB", "AAAA"] the claim requires. -/
theorem c4_counterexample_not_directory_order :
    convertToXMLTags (loadFont c4buf emptyReader).2 defaultOptions = ["AAAA", "BBBB"] ∧
    specDirectoryTags c4buf = ["BBBB", "AAAA"] ∧
    convertToXMLTags (loadFont c4buf emptyReader).2 defaultOptions ≠
      specDirectoryTags c4buf := by
  decide

/-- C4 (amended): the XML writer emits one element per stored table
tag in ascending lexicographic (byte-wise) tag order — the
`std::map` iteration order — filtered by the only/skip options and by
the stored table being non-null. -/
theorem c4_tables_emitted_in_lexicographic_order :
    ∀ (data : Bytes) (opts : TTXOptions),
      convertToXMLTags (loadFont data emptyReader).2 opts =
        (getTableList (loadFont data emptyReader).2).filter
          (fun tag => shouldIncludeTable tag opts &&
            (getTable (loadFont data emptyReader).2 tag).isSome) ∧
      List.Chain' (fun a b => strLtb a b = true)
        (getTableList (loadFont data emptyReader).2) := by
  intro data opts
  constructor
  · rfl
  · have h := loadFont_chain data emptyReader (by simp [emptyReader])
    unfold getTableList
    rw [List.chain'_map]
    exact h

/-- C6: an entry whose true range `[0xFFFFFFFF, 0xFFFFFFFF + 1)` lies
far past the 28-byte buffer is NOT skipped: the 32-bit bounds check
wraps to 0 and passes, and the entry produces a table (in the C++, the
byte extraction then reads out of bounds — undefined behavior,
modelled here as the empty in-range slice). -/
theorem c6_wrapped_bounds_check_not_skipped :
    loadFont c6buf emptyReader =
      (true, { format := FontFormat.TTF,
               tables := [("AAAA", some (FontTable.generic "AAAA" []))] }) ∧
    readU32 c6buf 20 = 4294967295 ∧
    readU32 c6buf 24 = 1 ∧
    4294967295 + 1 > c6buf.length ∧
    (4294967295 + 1) % 2 ^ 32 ≤ c6buf.length := by
  decide

/-- C7: the cmap decoder does not produce the mapping defined by the
format-4 parallel arrays: on `c7buf` (whose arrays map exactly 0x5A to
glyph 5), the decoder returns the fixed identity mapping on 0‥255 —
0x5A goes to 90 instead of 5, 65 is mapped though the arrays do not
map it, and 0xFFFF (mapped by the arrays) is absent. -/
theorem c7_format4_arrays_ignored :
    (CmapTable.parse c7buf).map (fun f => natLookup f.glyphMapping 0x5A) =
      some (some 90) ∧
    specFormat4Lookup c7buf 12 0x5A = some 5 ∧
    (CmapTable.parse c7buf).map (fun f => natLookup f.glyphMapping 65) =
      some (some 65) ∧
    specFormat4Lookup c7buf 12 65 = none ∧
    (CmapTable.parse c7buf).map (fun f => natLookup f.glyphMapping 0xFFFF) =
      some none ∧
    specFormat4Lookup c7buf 12 0xFFFF = some 0 := by
  set_option maxRecDepth 10000 in decide

/-- C8: the name-table XML escapes '&' but never '<': the second
replace loop starts searching at the position left by the first loop,
which is npos, so "A & B < C" renders as "A &amp; B < C" and not as
the claimed "A &amp; B &lt; C". -/
theorem c8_lt_never_escaped :
    NameTable.toXML [c8record] =
      "  <name>\n    <namerecord nameID=\"1\" platformID=\"3\" platEncID=\"1\" langID=\"0x409\">\n      A &amp; B < C\n    </namerecord>\n  </name>\n" ∧
    String.mk (escapeRecordString ("A & B < C".data)) = "A &amp; B < C" ∧
    ("A &amp; B < C" : String) ≠ "A &amp; B &lt; C" := by
  decide

/-- C9 counterexample: for the decoded all-zero head table (created =
0, below the epoch offset), the rendered created value is the 64-bit
wraparound 18446744071626706816, not the claimed value minus
2082844800 (which would be -2082844800 over the integers, or 0 under
truncated natural subtraction). -/
theorem c9_created_wraps_below_epoch :
    HeadTable.parse (List.replicate 54 0) = some headZeroFields ∧
    ("    <created value=\"18446744071626706816\"/>\n") ∈
      HeadTable.toXMLLines headZeroFields ∧
    ("    <created value=\"0\"/>\n") ∉ HeadTable.toXMLLines headZeroFields ∧
    ("    <created value=\"-2082844800\"/>\n") ∉ HeadTable.toXMLLines headZeroFields := by
  decide

/-- C9 (amended): the head-table text output renders unitsPerEm as a
plain decimal integer and created/modified as the Mac-epoch value
minus 2082844800 in 64-bit wraparound arithmetic; in particular
unitsPerEm = 2048 renders as 2048 and created = 3644697600 as
1561852800. -/
theorem c9_unitsPerEm_decimal_created_offset :
    (∀ f : HeadFields,
      ("    <unitsPerEm value=\"" ++ toString f.unitsPerEm ++ "\"/>\n") ∈
        HeadTable.toXMLLines f ∧
      ("    <created value=\"" ++
          toString ((f.created + (2 ^ 64 - 2082844800)) % 2 ^ 64) ++ "\"/>\n") ∈
        HeadTable.toXMLLines f ∧
      ("    <modified value=\"" ++
          toString ((f.modified + (2 ^ 64 - 2082844800)) % 2 ^ 64) ++ "\"/>\n") ∈
        HeadTable.toXMLLines f) ∧
    HeadTable.parse c9buf = some c9fields ∧
    ("    <unitsPerEm value=\"2048\"/>\n") ∈ HeadTable.toXMLLines c9fields ∧
    ("    <created value=\"1561852800\"/>\n") ∈ HeadTable.toXMLLines c9fields := by
  constructor
  · intro f
    refine ⟨?_, ?_, ?_⟩ <;> simp [HeadTable.toXMLLines]
  · decide

/-- C10: for every input text and any processor state,
`compileFromTTX` with default options reports success with no warnings
and returns exactly the 12 bytes 00 01 00 00 (TTF signature), 00 00
(table count 0) and six zero bytes, clearing the parser tables. -/
theorem c10_compile_constant_output :
    ∀ (ttxData : String) (ps : ProcessorState),
      TTXProcessor.compileFromTTX ttxData defaultOptions ps =
        ({ data := [0, 1, 0, 0, 0, 0, 0, 0, 0, 0, 0, 0], format := "TTF",
           warnings := [], success := true },
         { ps with parserTables := [] }) := by
  intro ttxData ps
  simp [TTXProcessor.compileFromTTX, TTXParser.parseXML, TTXParser.generateFont, defaultOptions]
  decide

/-- C5 counterexample: a font whose head table is 53 bytes (failing
the codec's 54-byte precondition) loads successfully, but the tag
"head" is still PRESENT in the document's table list and in
getFontInfo's tables — the claim says it is absent. -/
theorem c5_counterexample_tag_not_absent :
    (loadFont (c5pre ++ List.replicate 53 0 ++ [66]) emptyReader).1 = true ∧
    HeadTable.parse (List.replicate 53 0) = none ∧
    "head" ∈ getTableList (loadFont (c5pre ++ List.replicate 53 0 ++ [66]) emptyReader).2 ∧
    "head" ∈ (getFontInfo (loadFont (c5pre ++ List.replicate 53 0 ++ [66]) emptyReader).2).tables := by
  decide

/-- C5 (amended): when one table's codec length precondition is unmet
(here: any 53-byte head payload), the load as a whole still succeeds
and other tables are unaffected, but the failed table's tag REMAINS in
the document's table list (and in getFontInfo's tables), mapped to a
null table (`getTable` yields nothing, so the XML writer skips it). -/
theorem c5_failed_codec_tag_retained :
    ∀ d : Bytes, d.length = 53 →
      loadFont (c5pre ++ d ++ [66]) emptyReader =
        (true, { format := FontFormat.TTF,
                 tables := [("AAAA", some (FontTable.generic "AAAA" [66])),
                            ("head", none)] }) ∧
      getTableList (loadFont (c5pre ++ d ++ [66]) emptyReader).2 = ["AAAA", "head"] ∧
      getTable (loadFont (c5pre ++ d ++ [66]) emptyReader).2 "head" = none ∧
      getTable (loadFont (c5pre ++ d ++ [66]) emptyReader).2 "AAAA" =
        some (FontTable.generic "AAAA" [66]) ∧
      (getFontInfo (loadFont (c5pre ++ d ++ [66]) emptyReader).2).tables =
        ["AAAA", "head"] := by
  intro d hd
  have hbuf : (c5pre ++ d ++ [66]).length = 98 := by simp [c5pre, hd]
  have hne : ¬ (c5pre ++ d ++ [66] = []) := by
    intro h
    rw [h] at hbuf
    simp at hbuf
  have h0 : readU32 (c5pre ++ d ++ [66]) (0) = 65536 := by
    unfold readU32
    rw [show byteAt (c5pre ++ d ++ [66]) (0) = 0 by rfl]
    rw [show byteAt (c5pre ++ d ++ [66]) (0 + 1) = 1 by rfl]
    rw [show byteAt (c5pre ++ d ++ [66]) (0 + 2) = 0 by rfl]
    rw [show byteAt (c5pre ++ d ++ [66]) (0 + 3) = 0 by rfl]
    decide
  have hr4 : readU16 (c5pre ++ d ++ [66]) (4) = 2 := by
    unfold readU16
    rw [show byteAt (c5pre ++ d ++ [66]) (4) = 0 by rfl]
    rw [show byteAt (c5pre ++ d ++ [66]) (4 + 1) = 2 by rfl]
    decide
  have ho1 : readU32 (c5pre ++ d ++ [66]) (12 + 8) = 44 := by
    unfold readU32
    rw [show byteAt (c5pre ++ d ++ [66]) (12 + 8) = 0 by rfl]
    rw [show byteAt (c5pre ++ d ++ [66]) (12 + 8 + 1) = 0 by rfl]
    rw [show byteAt (c5pre ++ d ++ [66]) (12 + 8 + 2) = 0 by rfl]
    rw [show byteAt (c5pre ++ d ++ [66]) (12 + 8 + 3) = 44 by rfl]
    decide
  have hl1 : readU32 (c5pre ++ d ++ [66]) (12 + 12) = 53 := by
    unfold readU32
    rw [show byteAt (c5pre ++ d ++ [66]) (12 + 12) = 0 by rfl]
    rw [show byteAt (c5pre ++ d ++ [66]) (12 + 12 + 1) = 0 by rfl]
    rw [show byteAt (c5pre ++ d ++ [66]) (12 + 12 + 2) = 0 by rfl]
    rw [show byteAt (c5pre ++ d ++ [66]) (12 + 12 + 3) = 53 by rfl]
    decide
  have ho2 : readU32 (c5pre ++ d ++ [66]) (28 + 8) = 97 := by
    unfold readU32
    rw [show byteAt (c5pre ++ d ++ [66]) (28 + 8) = 0 by rfl]
    rw [show byteAt (c5pre ++ d ++ [66]) (28 + 8 + 1) = 0 by rfl]
    rw [show byteAt (c5pre ++ d ++ [66]) (28 + 8 + 2) = 0 by rfl]
    rw [show byteAt (c5pre ++ d ++ [66]) (28 + 8 + 3) = 97 by rfl]
    decide
  have hl2 : readU32 (c5pre ++ d ++ [66]) (28 + 12) = 1 := by
    unfold readU32
    rw [show byteAt (c5pre ++ d ++ [66]) (28 + 12) = 0 by rfl]
    rw [show byteAt (c5pre ++ d ++ [66]) (28 + 12 + 1) = 0 by rfl]
    rw [show byteAt (c5pre ++ d ++ [66]) (28 + 12 + 2) = 0 by rfl]
    rw [show byteAt (c5pre ++ d ++ [66]) (28 + 12 + 3) = 1 by rfl]
    decide
  have hsig : detectFormat (c5pre ++ d ++ [66]) = FontFormat.TTF := by
    simp only [detectFormat, hbuf, h0]
    norm_num
  have ht1 : tagAt (c5pre ++ d ++ [66]) 12 = "head" := rfl
  have ht2 : tagAt (c5pre ++ d ++ [66]) 28 = "AAAA" := rfl
  have hdrop44 : (c5pre ++ d ++ [66]).drop 44 = d ++ [66] := rfl
  have hdrop97 : (c5pre ++ d ++ [66]).drop 97 = (d ++ [66]).drop 53 := rfl
  have e1 : (d ++ [66]).take 53 = d := by
    rw [← hd]
    exact List.take_left d [66]
  have e2 : (d ++ [66]).drop 53 = [66] := by
    rw [← hd]
    exact List.drop_left d [66]
  have e4 : createTable "head" d = none := by
    simp [createTable, HeadTable.parse, hd]
  have hm0 : mapInsert "head" none [] = [("head", none)] := rfl
  have hmain : loadFont (c5pre ++ d ++ [66]) emptyReader =
      (true, { format := FontFormat.TTF,
               tables := [("AAAA", some (FontTable.generic "AAAA" [66])),
                          ("head", none)] }) := by
    rw [loadFont, if_neg hne, hsig]
    rw [parseTTF]
    rw [if_neg (by rw [hbuf]; omega)]
    rw [parseTableDirectory, if_neg (by omega), hr4]
    simp only [parseEntries, hbuf, ht1, ho1, hl1, ht2, ho2, hl2, hdrop44, hdrop97, e1, e2, e4,
      emptyReader, hm0]
    decide
  refine ⟨hmain, ?_, ?_, ?_, ?_⟩ <;> rw [hmain] <;> decide

/-- C5 witness: the amended theorem applied at the concrete 53-byte
all-zero head payload. -/
theorem c5_failed_codec_tag_retained_witness :
    (List.replicate 53 (0 : Nat)).length = 53 ∧
    getTable (loadFont (c5pre ++ List.replicate 53 0 ++ [66]) emptyReader).2 "head" = none ∧
    getTableList (loadFont (c5pre ++ List.replicate 53 0 ++ [66]) emptyReader).2 =
      ["AAAA", "head"] := by
  have h := c5_failed_codec_tag_retained (List.replicate 53 0) (by decide)
  exact ⟨by decide, h.2.2.1, h.2.1⟩

end TtxWasm

